import Mathlib

/-!
Verification of the question-paper CRUD web application (`app.py`) against its
natural-language specification.

The application is a Flask app over a SQLite table `question_papers_1` plus a
`visitor_stats` table.  The shallow embedding below models:

* the record type and store (rows plus the AUTOINCREMENT counter);
* the listing route (`papers` / `admin`): SQL `LIKE`-based search filter,
  sort-field dispatch, `COUNT(*)`-based page count and `LIMIT/OFFSET`
  pagination;
* the mutation routes `add`, `update`, `delete` and the `download` route,
  including the validation chains and werkzeug's `secure_filename`;
* the visitor-tracking side effect of the public listing.

Strings are modelled as Lean `String`s (the claims only exercise ASCII data;
SQLite's `LIKE` and Python's `str.lower` are modelled with ASCII case
folding, which is exactly SQLite's default `LIKE` behaviour).  The
`semester_no` and `paper_year` form fields arrive as decimal numeral strings
and are stored in `INTEGER` columns, so they are modelled as integers; a
numeral string is never empty, hence the "required field" check cannot fire
for `semester_no`.
-/

/-- ASCII lower-casing of a single character: SQLite's default `LIKE` is
case-insensitive exactly on the ASCII range, and Python's `.lower()` agrees
with it there. -/
def asciiLower (c : Char) : Char :=
  if 65 ≤ c.toNat ∧ c.toNat ≤ 90 then Char.ofNat (c.toNat + 32) else c

/-- ASCII lower-casing of a character list. -/
def lowerList (s : List Char) : List Char := s.map asciiLower

/-- Helper for the `%` wildcard of SQL `LIKE`: `likeStar m s` holds when `m`
holds of some suffix of `s` (the `%` consumes an arbitrary prefix). -/
def likeStar (m : List Char → Bool) : List Char → Bool
  | [] => m []
  | c :: cs => m (c :: cs) || likeStar m cs

/-- SQLite `LIKE` pattern matching (no ESCAPE clause, as in the source):
`%` matches any sequence, `_` matches any single character, every other
character matches itself up to ASCII case.  This is the semantics of the
`year_name LIKE ? OR subject_name LIKE ? OR subject_code LIKE ?` filter in
the `papers` and `admin` routes of `app.py`. -/
def likeMatch : List Char → List Char → Bool
  | [], s => s.isEmpty
  | p :: ps, s =>
    if p = '%' then likeStar (likeMatch ps) s
    else if p = '_' then
      match s with
      | [] => false
      | _ :: cs => likeMatch ps cs
    else
      match s with
      | [] => false
      | c :: cs => (asciiLower p == asciiLower c) && likeMatch ps cs

/-- The pattern the routes bind for each searched column: `f'%{search}%'`. -/
def likePattern (s : String) : List Char := '%' :: (s.data ++ ['%'])

/-- `column LIKE '%search%'` on one text column. -/
def fieldLike (search field : String) : Bool :=
  likeMatch (likePattern search) field.data

/-- One row of `question_papers_1` (id, metadata, binary payload).
`subject_code` and `paper_year` are nullable columns, file bytes are a list
of byte values. -/
structure Paper where
  id : Nat
  year_name : String
  semester_no : Int
  subject_name : String
  subject_code : Option String
  paper_type : String
  paper_year : Option Int
  file_data : List Nat
deriving Repr, DecidableEq

/-- The record store: the table rows in insertion order together with the
`AUTOINCREMENT` counter that assigns the next primary key. -/
structure Store where
  rows : List Paper
  nextId : Nat
deriving Repr, DecidableEq

/-- The search predicate of the listing `WHERE` clause.  A `NULL`
`subject_code` makes its `LIKE` comparison `NULL`, i.e. not selected. -/
def matchesSearch (search : String) (r : Paper) : Bool :=
  fieldLike search r.year_name || fieldLike search r.subject_name ||
    (match r.subject_code with
     | none => false
     | some c => fieldLike search c)

/-- The `WHERE` clause is only added when `search` is non-empty
(`if search:` in the route). -/
def filterRecords (search : String) (rs : List Paper) : List Paper :=
  if search = "" then rs else rs.filter (matchesSearch search)

/-- Insertion step of a stable insertion sort. -/
def insertBy {α : Type} (le : α → α → Bool) (a : α) : List α → List α
  | [] => [a]
  | b :: bs => if le a b then a :: b :: bs else b :: insertBy le a bs

/-- Stable sort used to model `ORDER BY column ASC` (SQLite leaves the order
of equal keys unspecified; we pick the stable order). -/
def sortBy {α : Type} (le : α → α → Bool) : List α → List α
  | [] => []
  | a :: as => insertBy le a (sortBy le as)

/-- `ORDER BY` comparison for the nullable `paper_year` column: SQLite sorts
`NULL`s first in ascending order. -/
def leOptInt : Option Int → Option Int → Bool
  | none, _ => true
  | some _, none => false
  | some a, some b => decide (a ≤ b)

/-- Ascending comparison for the three allow-listed non-id sort columns. -/
def fieldLe (sort : String) (a b : Paper) : Bool :=
  if sort = "year_name" then decide (a.year_name ≤ b.year_name)
  else if sort = "semester_no" then decide (a.semester_no ≤ b.semester_no)
  else leOptInt a.paper_year b.paper_year

/-- The sort dispatch of the listing routes:
`if sort in ['year_name', 'semester_no', 'paper_year']: ORDER BY {sort}`
`else: ORDER BY id`. -/
def sortRecords (sort : String) (rs : List Paper) : List Paper :=
  if sort ∈ (["year_name", "semester_no", "paper_year"] : List String) then
    sortBy (fieldLe sort) rs
  else
    sortBy (fun a b => decide (a.id ≤ b.id)) rs

/-- What a listing request renders: the page of records, the echoed page
number and `total_pages`. -/
structure ListingResult where
  records : List Paper
  page : Nat
  total_pages : Nat
deriving Repr, DecidableEq

/-- The listing query of the `papers` (and `admin`) route: filter by search,
order by the sort dispatch, `total_pages = math.ceil(total_records / 10)`
where `total_records` is the `COUNT(*)` over the same `WHERE` clause, and
the page itself is `LIMIT 10 OFFSET (page - 1) * 10`. -/
def papersListing (rs : List Paper) (page : Nat) (search sort : String) :
    ListingResult :=
  let filtered := filterRecords search rs
  let sorted := sortRecords sort filtered
  { records := (sorted.drop ((page - 1) * 10)).take 10
    page := page
    total_pages := (filtered.length + 10 - 1) / 10 }

/-- `allowed_file` from `app.py`:
`'.' in filename and filename.rsplit('.', 1)[1].lower() in {'pdf'}`.
`afterLastDot` models `rsplit('.', 1)[1]`, the segment after the last dot
(only evaluated when a dot is present). -/
def afterLastDot (s : List Char) : List Char :=
  (s.reverse.takeWhile (fun c => ¬ c = '.')).reverse

/-- The upload extension check of `app.py`. -/
def allowed_file (filename : String) : Bool :=
  filename.data.contains '.' &&
    lowerList (afterLastDot filename.data) == ['p', 'd', 'f']

/-- The fields the `add` and `update` routes read from the submitted form.
`file` is `none` when the request carries no usable upload (Flask's
`FileStorage` is falsy exactly when its filename is empty); otherwise it is
the pair of the client filename and the uploaded bytes.  `paper_year` models
`request.form['paper_year'] or None` (empty field becomes `NULL`). -/
structure PaperForm where
  year_name : String
  semester_no : Int
  subject_name : String
  subject_code : String
  paper_type : String
  paper_year : Option Int
  file : Option (String × List Nat)
deriving Repr, DecidableEq

/-- Outcome of a mutation route, i.e. which flash message it produces.
Everything except `success` is a validation rejection issued before any
write. -/
inductive MutResult where
  | missingField
  | tooLong
  | badSemester
  | badType
  | badFile
  | success
deriving Repr, DecidableEq

/-- The row the `add` route inserts (`subject_code` is always submitted as a
string, possibly empty, so the stored column is never `NULL` here). -/
def mkPaper (id : Nat) (f : PaperForm) (data : List Nat) : Paper :=
  { id := id
    year_name := f.year_name
    semester_no := f.semester_no
    subject_name := f.subject_name
    subject_code := some f.subject_code
    paper_type := f.paper_type
    paper_year := f.paper_year
    file_data := data }

/-- The `add` route: the validation chain in source order, then
`INSERT INTO question_papers_1 ...` and a success flash. -/
def addOp (st : Store) (f : PaperForm) : Store × MutResult :=
  if f.year_name = "" ∨ f.subject_name = "" ∨ f.paper_type = "" ∨ f.file = none then
    (st, .missingField)
  else if 20 < f.year_name.length ∨ 100 < f.subject_name.length ∨
      (¬ f.subject_code = "" ∧ 20 < f.subject_code.length) then
    (st, .tooLong)
  else if ¬ (1 ≤ f.semester_no ∧ f.semester_no ≤ 12) then
    (st, .badSemester)
  else if ¬ (f.paper_type = "Regular" ∨ f.paper_type = "Arrear") then
    (st, .badType)
  else
    match f.file with
    | none => (st, .missingField)
    | some fl =>
      if ¬ allowed_file fl.1 = true then (st, .badFile)
      else ({ rows := st.rows ++ [mkPaper st.nextId f fl.2], nextId := st.nextId + 1 },
            .success)

/-- The row rewrite performed by the `UPDATE` statement: all metadata
columns are overwritten from the form; `file_data` is overwritten with
`newData` when a new file was uploaded and kept otherwise (the two SQL
variants in the source). -/
def applyUpd (f : PaperForm) (newData : Option (List Nat)) (r : Paper) : Paper :=
  { r with
    year_name := f.year_name
    semester_no := f.semester_no
    subject_name := f.subject_name
    subject_code := some f.subject_code
    paper_type := f.paper_type
    paper_year := f.paper_year
    file_data := newData.getD r.file_data }

/-- The POST branch of the `update` route: the same validation chain as
`add` except that the file is optional, then `UPDATE ... WHERE id=?` (which
touches every row with that id and nothing else) and an unconditional
success flash. -/
def updatePost (st : Store) (id : Nat) (f : PaperForm) : Store × MutResult :=
  if f.year_name = "" ∨ f.subject_name = "" ∨ f.paper_type = "" then
    (st, .missingField)
  else if 20 < f.year_name.length ∨ 100 < f.subject_name.length ∨
      (¬ f.subject_code = "" ∧ 20 < f.subject_code.length) then
    (st, .tooLong)
  else if ¬ (1 ≤ f.semester_no ∧ f.semester_no ≤ 12) then
    (st, .badSemester)
  else if ¬ (f.paper_type = "Regular" ∨ f.paper_type = "Arrear") then
    (st, .badType)
  else
    match f.file with
    | some fl =>
      if ¬ allowed_file fl.1 = true then (st, .badFile)
      else
        ({ st with rows :=
             st.rows.map (fun r => if r.id = id then applyUpd f (some fl.2) r else r) },
         .success)
    | none =>
        ({ st with rows :=
             st.rows.map (fun r => if r.id = id then applyUpd f none r else r) },
         .success)

/-- Outcome of the GET branch of the `update` route. -/
inductive GetUpdResult where
  | notFound
  | editView (r : Paper)
deriving Repr, DecidableEq

/-- The GET branch of the `update` route: `SELECT ... WHERE id=?`, flashing
"Question paper not found." when no row exists. -/
def updateGet (st : Store) (id : Nat) : GetUpdResult :=
  match st.rows.find? (fun r => r.id == id) with
  | none => .notFound
  | some r => .editView r

/-- Outcome of the `delete` route (the route always flashes the success
message; there is no distinct not-found branch). -/
inductive DelResult where
  | success
deriving Repr, DecidableEq

/-- The `delete` route: `DELETE FROM question_papers_1 WHERE id=?` followed
by an unconditional success flash. -/
def deleteOp (st : Store) (id : Nat) : Store × DelResult :=
  ({ st with rows := st.rows.filter (fun r => ¬ r.id = id) }, .success)

/-- A character werkzeug's `secure_filename` keeps: `[A-Za-z0-9_.-]`. -/
def filenameSafeChar (c : Char) : Bool :=
  decide (('A' ≤ c ∧ c ≤ 'Z') ∨ ('a' ≤ c ∧ c ≤ 'z') ∨ ('0' ≤ c ∧ c ≤ '9') ∨
    c = '_' ∨ c = '.' ∨ c = '-')

/-- Python `str.split()` whitespace (the characters `str.split` splits on
that can appear in a header filename). -/
def isPyWs (c : Char) : Bool :=
  c = ' ' || c = '\t' || c = '\n' || c = '\x0d' || c = '\x0b' || c = '\x0c'

/-- `"_".join(s.split())`: collapse every whitespace run into a single
underscore, discarding leading and trailing whitespace.  `cur` accumulates
the current word in reverse. -/
def wsToUnderscore : List Char → List Char → List (List Char)
  | [], cur => if cur.isEmpty then [] else [cur.reverse]
  | c :: cs, cur =>
    if isPyWs c then
      if cur.isEmpty then wsToUnderscore cs []
      else cur.reverse :: wsToUnderscore cs []
    else wsToUnderscore cs (c :: cur)

/-- werkzeug's `secure_filename`, for the ASCII inputs the application
produces: drop non-ASCII characters (`encode('ascii', 'ignore')`; the
preceding NFKD normalisation is the identity on ASCII and is not modelled
further), replace the path separator by a space, join the whitespace-split
words with underscores, strip every character outside `[A-Za-z0-9_.-]`, and
strip leading and trailing dots and underscores.  The Windows device-name
special case does not apply on the posix deployment and is not modelled. -/
def secureFilename (s : String) : String :=
  let ascii := s.data.filter (fun c => c.toNat < 128)
  let sep := ascii.map (fun c => if c = '/' then ' ' else c)
  let joined := List.intercalate ['_'] (wsToUnderscore sep [])
  let kept := joined.filter filenameSafeChar
  let stripped :=
    ((kept.dropWhile (fun c => c = '.' ∨ c = '_')).reverse.dropWhile
      (fun c => c = '.' ∨ c = '_')).reverse
  String.mk stripped

/-- Outcome of the `download` route. -/
inductive DownloadResult where
  | notFound
  | file (data : List Nat) (contentType : String) (filename : String)
deriving Repr, DecidableEq

/-- The `download` route: fetch the row by id; on a hit return the blob with
`Content-Type: application/pdf` and the `Content-Disposition` filename
`secure_filename(f"{subject_name}_{year_name}.pdf")`; otherwise flash
"Question paper not found.". -/
def download (st : Store) (id : Nat) : DownloadResult :=
  match st.rows.find? (fun r => r.id == id) with
  | none => .notFound
  | some r =>
    .file r.file_data "application/pdf"
      (secureFilename (r.subject_name ++ "_" ++ r.year_name ++ ".pdf"))

/-- What one public-listing view does to the visitor table and the
response. -/
structure VisitResponse where
  state : List String
  usedId : String
  setCookie : Option (String × Nat)
deriving Repr, DecidableEq

/-- The visitor-tracking prelude of the `papers` route: use the cookie's
visitor id if present, else the freshly minted `uuid4` string; append one
`visitor_stats` row tagged with it; and, exactly when the request carried no
cookie, set the `visitor_id` cookie to the new id with
`max_age = 30*24*60*60` seconds. -/
def papersVisit (cookie : Option String) (fresh : String) (vs : List String) :
    VisitResponse :=
  match cookie with
  | some v => { state := vs ++ [v], usedId := v, setCookie := none }
  | none =>
    { state := vs ++ [fresh], usedId := fresh
      setCookie := some (fresh, 30 * 24 * 60 * 60) }

/-- `SELECT COUNT(*) FROM visitor_stats`. -/
def totalVisits (vs : List String) : Nat := vs.length

/-- `SELECT COUNT(DISTINCT visitor_id) FROM visitor_stats`. -/
def uniqueVisitors (vs : List String) : Nat := vs.dedup.length

/-- A sequence of public-listing views by no-cookie clients carrying the
given freshly minted ids, starting from an empty visitor table. -/
def visitAll (ids : List String) : List String :=
  ids.foldl (fun vs i => (papersVisit none i vs).state) []

/-! ## Specification-side definitions

These follow the wording of the specification (case-insensitive substring
search, the list of `add`/`update` rejection causes) and are compared with
the definitions read off the source above. -/

/-- Spec wording: `s` occurs in `t` as a case-insensitive (ASCII)
substring. -/
def substrCI (s t : String) : Bool :=
  decide (lowerList s.data <:+: lowerList t.data)

/-- Spec wording of the search filter: the search text occurs as a
case-insensitive substring of `year_name`, of `subject_name`, or of
`subject_code` (OR semantics). -/
def specSearchMatch (s : String) (r : Paper) : Bool :=
  substrCI s r.year_name || substrCI s r.subject_name ||
    (match r.subject_code with
     | none => false
     | some c => substrCI s c)

/-- The search string contains neither of the SQL `LIKE` wildcards. -/
def noWild (s : List Char) : Bool :=
  s.all (fun c => decide (¬ c = '%' ∧ ¬ c = '_'))

/-- The optional upload, when present, passes the extension check. -/
def fileOk : Option (String × List Nat) → Bool
  | none => true
  | some fl => allowed_file fl.1

/-- Spec wording of the `add` rejection causes: a required field is empty,
a length limit is exceeded, `semester_no` is outside `[1, 12]`,
`paper_type` is not in the enum, or the uploaded file fails the `.pdf`
extension check. -/
def addRejectsSpec (f : PaperForm) : Bool :=
  f.year_name == "" || f.subject_name == "" || f.paper_type == "" ||
  f.file.isNone ||
  decide (20 < f.year_name.length) || decide (100 < f.subject_name.length) ||
  (!(f.subject_code == "") && decide (20 < f.subject_code.length)) ||
  decide (f.semester_no < 1) || decide (12 < f.semester_no) ||
  !(f.paper_type == "Regular" || f.paper_type == "Arrear") ||
  !(fileOk f.file)

/-- Spec wording of a valid `update` submission (the shared validation
rules, file optional). -/
def updateValid (f : PaperForm) : Bool :=
  !(f.year_name == "") && !(f.subject_name == "") && !(f.paper_type == "") &&
  decide (f.year_name.length ≤ 20) && decide (f.subject_name.length ≤ 100) &&
  (f.subject_code == "" || decide (f.subject_code.length ≤ 20)) &&
  decide (1 ≤ f.semester_no) && decide (f.semester_no ≤ 12) &&
  (f.paper_type == "Regular" || f.paper_type == "Arrear") &&
  fileOk f.file

/-! ## Helper lemmas -/

theorem length_insertBy {α : Type} (le : α → α → Bool) (a : α) (l : List α) :
    (insertBy le a l).length = l.length + 1 := by
  induction l with
  | nil => rfl
  | cons b bs ih =>
    simp only [insertBy]
    split
    · simp
    · simp [ih]

theorem length_sortBy {α : Type} (le : α → α → Bool) (l : List α) :
    (sortBy le l).length = l.length := by
  induction l with
  | nil => rfl
  | cons a as ih => simp [sortBy, length_insertBy, ih]

theorem likeStar_iff (m : List Char → Bool) (s : List Char) :
    likeStar m s = true ↔ ∃ t, t <:+ s ∧ m t = true := by
  induction s with
  | nil =>
    simp only [likeStar]
    constructor
    · intro h
      exact ⟨[], List.nil_suffix, h⟩
    · rintro ⟨t, ht, hm⟩
      rcases List.suffix_nil.mp ht with rfl
      exact hm
  | cons c cs ih =>
    simp only [likeStar, Bool.or_eq_true, ih]
    constructor
    · rintro (h | ⟨t, ht, hm⟩)
      · exact ⟨c :: cs, List.suffix_refl _, h⟩
      · exact ⟨t, ht.trans (List.suffix_cons c cs), hm⟩
    · rintro ⟨t, ht, hm⟩
      rcases List.suffix_cons_iff.mp ht with rfl | ht
      · exact Or.inl hm
      · exact Or.inr ⟨t, ht, hm⟩

theorem likeMatch_wild_nil (s : List Char) : likeMatch ['%'] s = true := by
  have h0 : likeMatch ([] : List Char) [] = true := rfl
  show likeMatch ('%' :: []) s = true
  simp only [likeMatch, if_pos rfl]
  exact (likeStar_iff _ _).mpr ⟨[], List.nil_suffix, h0⟩

theorem likeMatch_trailing (p : List Char) :
    ∀ s, noWild p = true →
      (likeMatch (p ++ ['%']) s = true ↔ lowerList p <+: lowerList s) := by
  induction p with
  | nil =>
    intro s _
    simpa [lowerList] using likeMatch_wild_nil s
  | cons c cs ih =>
    intro s hp
    simp only [noWild, List.all_cons, Bool.and_eq_true, decide_eq_true_eq] at hp
    obtain ⟨⟨hc1, hc2⟩, hcs⟩ := hp
    have hcs' : noWild cs = true := hcs
    cases s with
    | nil =>
      simp only [List.cons_append, likeMatch, if_neg hc1, if_neg hc2]
      simp [lowerList]
    | cons d ds =>
      simp only [List.cons_append, likeMatch, if_neg hc1, if_neg hc2]
      rw [Bool.and_eq_true, beq_iff_eq]
      simp only [lowerList, List.map_cons, List.cons_prefix_cons]
      have := ih ds hcs'
      simp only [lowerList] at this
      rw [List.append_eq, this]

theorem fieldLike_iff (s t : String) (hw : noWild s.data = true) :
    fieldLike s t = true ↔ lowerList s.data <:+: lowerList t.data := by
  show likeMatch ('%' :: (s.data ++ ['%'])) t.data = true ↔ _
  simp only [likeMatch]
  rw [if_pos (by trivial), likeStar_iff]
  constructor
  · rintro ⟨u, hu, hm⟩
    have hpre := (likeMatch_trailing s.data u hw).mp hm
    exact List.infix_iff_prefix_suffix.mpr
      ⟨lowerList u, hpre, List.IsSuffix.map asciiLower hu⟩
  · intro h
    obtain ⟨u, hpre, hsuf⟩ := List.infix_iff_prefix_suffix.mp h
    obtain ⟨t', ht', rfl⟩ := (List.isSuffix_map_iff).mp hsuf
    exact ⟨t', ht', (likeMatch_trailing s.data t' hw).mpr hpre⟩

theorem fieldLike_eq_substrCI (s t : String) (hw : noWild s.data = true) :
    fieldLike s t = substrCI s t := by
  have h := fieldLike_iff s t hw
  unfold substrCI
  by_cases hc : lowerList s.data <:+: lowerList t.data
  · rw [h.mpr hc, decide_eq_true hc]
  · rw [decide_eq_false hc]
    rcases hb : fieldLike s t with _ | _
    · rfl
    · exact absurd (h.mp hb) hc

theorem matchesSearch_eq_spec (s : String) (r : Paper) (hw : noWild s.data = true) :
    matchesSearch s r = specSearchMatch s r := by
  unfold matchesSearch specSearchMatch
  rw [fieldLike_eq_substrCI s r.year_name hw, fieldLike_eq_substrCI s r.subject_name hw]
  cases hc : r.subject_code with
  | none => rfl
  | some c => simp only [fieldLike_eq_substrCI s c hw]

theorem dropWhile_head_not {α : Type} (p : α → Bool) (l : List α) (d : α)
    (t : List α) (h : l.dropWhile p = d :: t) : p d = false := by
  induction l with
  | nil => simp at h
  | cons a as ih =>
    rw [List.dropWhile_cons] at h
    by_cases ha : p a = true
    · rw [if_pos ha] at h
      exact ih h
    · rw [if_neg ha] at h
      injection h with h1 h2
      subst h1
      revert ha
      cases p a <;> simp

theorem takeWhile_append_cons {α : Type} (p : α → Bool) (l : List α) (c : α)
    (t : List α) (h : ∀ x ∈ l, p x = true) (hc : p c = false) :
    (l ++ c :: t).takeWhile p = l := by
  induction l with
  | nil => simp [List.takeWhile_cons, hc]
  | cons a as ih =>
    have ha := h a (List.mem_cons_self a as)
    simp [List.takeWhile_cons, ha, ih (fun x hx => h x (List.mem_cons_of_mem _ hx))]

/-- C2 counterexample: searching for the bare `LIKE` wildcard `_` selects a
record none of whose fields contain `_` as a substring, because the search
text is spliced into the `LIKE` pattern unescaped. -/
theorem C2_search_cex :
    filterRecords "_" [⟨1, "Y", 1, "X", none, "Regular", none, []⟩] =
      [(⟨1, "Y", 1, "X", none, "Regular", none, []⟩ : Paper)] ∧
    specSearchMatch "_" ⟨1, "Y", 1, "X", none, "Regular", none, []⟩ = false := by
  decide

/-- C2 (amended): for every non-empty search string containing neither of
the SQL `LIKE` wildcards `%` and `_`, the listing filter selects exactly
those records for which the search text occurs as a case-insensitive
substring of `year_name`, of `subject_name`, or of `subject_code`
(OR semantics). -/
theorem C2_search_filter_substring (rs : List Paper) (s : String)
    (hs : ¬ s = "") (hw : noWild s.data = true) :
    filterRecords s rs = rs.filter (specSearchMatch s) := by
  unfold filterRecords
  rw [if_neg hs]
  exact List.filter_congr (fun r _ => matchesSearch_eq_spec s r hw)

/-- C2 witness: a record with subject_name "Thermodynamics" is selected by
searching "thermo" and by searching "THERMO". -/
theorem C2_search_witness :
    filterRecords "thermo"
        [⟨1, "2024", 1, "Thermodynamics", some "TD1", "Regular", none, []⟩] =
      [(⟨1, "2024", 1, "Thermodynamics", some "TD1", "Regular", none, []⟩ : Paper)] ∧
    filterRecords "THERMO"
        [⟨1, "2024", 1, "Thermodynamics", some "TD1", "Regular", none, []⟩] =
      [(⟨1, "2024", 1, "Thermodynamics", some "TD1", "Regular", none, []⟩ : Paper)] := by
  constructor
  · rw [C2_search_filter_substring _ _ (by decide) (by decide)]
    decide
  · rw [C2_search_filter_substring _ _ (by decide) (by decide)]
    decide

/-- C3: a listing request whose sort value is outside the allow-list
{id, year_name, semester_no, paper_year} produces exactly the same result
(records and total_pages) as a request with sort=id. -/
theorem C3_sort_fallback (rs : List Paper) (p : Nat) (s sortv : String)
    (h : ¬ sortv ∈ (["id", "year_name", "semester_no", "paper_year"] : List String)) :
    papersListing rs p s sortv = papersListing rs p s "id" := by
  have h3 : ¬ sortv ∈ (["year_name", "semester_no", "paper_year"] : List String) :=
    fun hm => h (List.mem_cons_of_mem _ hm)
  unfold papersListing sortRecords
  simp only [if_neg h3,
    if_neg (show ¬ ("id" : String) ∈ ["year_name", "semester_no", "paper_year"] by decide)]

/-- C3 witness: sort=nonexistent_field behaves exactly like sort=id on a
concrete two-record store. -/
theorem C3_sort_fallback_witness :
    papersListing [⟨1, "2024", 1, "A", none, "Regular", none, []⟩,
        ⟨2, "2023", 2, "B", none, "Arrear", none, []⟩] 1 "" "nonexistent_field" =
      papersListing [⟨1, "2024", 1, "A", none, "Regular", none, []⟩,
        ⟨2, "2023", 2, "B", none, "Arrear", none, []⟩] 1 "" "id" :=
  C3_sort_fallback _ 1 "" "nonexistent_field" (by decide)

/-- C10: `allowed_file` accepts exactly the filenames that contain a dot and
whose segment after the last dot equals "pdf" case-insensitively; only the
final extension counts ("x.PDF" and "x.exe.pdf" accepted, "pdf" and
"x.pdf.exe" rejected). -/
theorem C10_allowed_file_correct :
    (∀ fn : String, allowed_file fn = true ↔
      ∃ stem ext : List Char, fn.data = stem ++ '.' :: ext ∧ ¬ '.' ∈ ext ∧
        lowerList ext = ['p', 'd', 'f']) ∧
    allowed_file "x.PDF" = true ∧ allowed_file "x.exe.pdf" = true ∧
    allowed_file "pdf" = false ∧ allowed_file "x.pdf.exe" = false := by
  refine ⟨?_, by decide, by decide, by decide, by decide⟩
  intro fn
  unfold allowed_file
  rw [Bool.and_eq_true, beq_iff_eq]
  constructor
  · rintro ⟨hdot, hext⟩
    have hmem : '.' ∈ fn.data := List.elem_iff.mp hdot
    have hmemr : '.' ∈ fn.data.reverse := List.mem_reverse.mpr hmem
    set q : Char → Bool := fun c => decide (¬ c = '.') with hq
    have hsplit := List.takeWhile_append_dropWhile (p := q) (l := fn.data.reverse)
    have hdw : fn.data.reverse.dropWhile q ≠ [] := by
      intro hnil
      rw [hnil, List.append_nil] at hsplit
      rw [← hsplit] at hmemr
      have := List.all_takeWhile (p := q) (l := fn.data.reverse)
      have hqd := List.all_eq_true.mp this '.' hmemr
      simp [hq] at hqd
    rcases hdwe : fn.data.reverse.dropWhile q with _ | ⟨d, dw⟩
    · exact absurd hdwe hdw
    · have hd : q d = false := dropWhile_head_not q fn.data.reverse d dw hdwe
      have hd' : d = '.' := by simpa [hq] using hd
      subst hd'
      refine ⟨dw.reverse, (fn.data.reverse.takeWhile q).reverse, ?_, ?_, ?_⟩
      · have : fn.data.reverse = fn.data.reverse.takeWhile q ++ '.' :: dw := by
          rw [← hdwe]; exact hsplit.symm
        calc fn.data = fn.data.reverse.reverse := (List.reverse_reverse _).symm
          _ = (fn.data.reverse.takeWhile q ++ '.' :: dw).reverse := by rw [← this]
          _ = dw.reverse ++ '.' :: (fn.data.reverse.takeWhile q).reverse := by
              simp [List.reverse_append]
      · intro hmt
        have hmt' : '.' ∈ fn.data.reverse.takeWhile q := List.mem_reverse.mp hmt
        have := List.all_eq_true.mp (List.all_takeWhile (p := q) (l := fn.data.reverse)) '.' hmt'
        simp [hq] at this
      · exact hext
  · rintro ⟨stem, ext, hfn, hne, hl⟩
    constructor
    · exact List.elem_iff.mpr (by rw [hfn]; exact List.mem_append_right _ (List.mem_cons_self _ _))
    · have hrev : fn.data.reverse = ext.reverse ++ '.' :: stem.reverse := by
        rw [hfn]
        simp [List.reverse_append]
      have htw : fn.data.reverse.takeWhile (fun c => decide (¬ c = '.')) = ext.reverse := by
        rw [hrev]
        refine takeWhile_append_cons _ _ _ _ ?_ (by simp)
        intro x hx
        have hx' : x ∈ ext := List.mem_reverse.mp hx
        simp only [decide_eq_true_eq]
        intro hxd
        exact hne (hxd ▸ hx')
      show lowerList ((fn.data.reverse.takeWhile _).reverse) = _
      rw [htw, List.reverse_reverse, hl]

theorem length_sortRecords (v : String) (l : List Paper) :
    (sortRecords v l).length = l.length := by
  unfold sortRecords
  split <;> exact length_sortBy _ _

/-- C1: for a listing request with positive page p, search s and any sort
field: at most 10 records are returned; they are the slice at offset
(p-1)*10 of the sorted filtered sequence; total_pages is
ceil(total_matching/10); a page beyond the last yields an empty result; and
the last page holds total_matching mod 10 records (10 when the remainder is
0 and there are matches). -/
theorem C1_pagination (rs : List Paper) (p : Nat) (s sortv : String) (hp : 1 ≤ p) :
    (papersListing rs p s sortv).records.length ≤ 10 ∧
    (papersListing rs p s sortv).records =
      ((sortRecords sortv (filterRecords s rs)).drop ((p - 1) * 10)).take 10 ∧
    (papersListing rs p s sortv).total_pages = ((filterRecords s rs).length + 9) / 10 ∧
    ((filterRecords s rs).length ≤ (p - 1) * 10 →
      (papersListing rs p s sortv).records = []) ∧
    (0 < (filterRecords s rs).length → p = (papersListing rs p s sortv).total_pages →
      (papersListing rs p s sortv).records.length =
        if (filterRecords s rs).length % 10 = 0 then 10
        else (filterRecords s rs).length % 10) := by
  have hlen := length_sortRecords sortv (filterRecords s rs)
  simp only [papersListing]
  refine ⟨?_, trivial, by omega, ?_, ?_⟩
  · simp
  · intro hle
    have : (sortRecords sortv (filterRecords s rs)).length ≤ (p - 1) * 10 := by omega
    rw [List.drop_eq_nil_of_le this, List.take_nil]
  · intro hpos hpage
    rw [List.length_take, List.length_drop, hlen]
    rw [hpage]
    split <;> omega

/-- C1 witness: the pagination properties instantiated on a concrete
two-record store, page 1, empty search, sort=id. -/
theorem C1_pagination_witness :
    (papersListing [⟨1, "a", 1, "b", none, "Regular", none, []⟩,
        ⟨2, "c", 2, "d", none, "Arrear", none, []⟩] 1 "" "id").records.length ≤ 10 ∧
    (papersListing [⟨1, "a", 1, "b", none, "Regular", none, []⟩,
        ⟨2, "c", 2, "d", none, "Arrear", none, []⟩] 1 "" "id").records =
      ((sortRecords "id" (filterRecords ""
        [⟨1, "a", 1, "b", none, "Regular", none, []⟩,
         ⟨2, "c", 2, "d", none, "Arrear", none, []⟩])).drop ((1 - 1) * 10)).take 10 ∧
    (papersListing [⟨1, "a", 1, "b", none, "Regular", none, []⟩,
        ⟨2, "c", 2, "d", none, "Arrear", none, []⟩] 1 "" "id").total_pages =
      ((filterRecords "" [⟨1, "a", 1, "b", none, "Regular", none, []⟩,
        ⟨2, "c", 2, "d", none, "Arrear", none, []⟩]).length + 9) / 10 ∧
    ((filterRecords "" [⟨1, "a", 1, "b", none, "Regular", none, []⟩,
        ⟨2, "c", 2, "d", none, "Arrear", none, []⟩]).length ≤ (1 - 1) * 10 →
      (papersListing [⟨1, "a", 1, "b", none, "Regular", none, []⟩,
        ⟨2, "c", 2, "d", none, "Arrear", none, []⟩] 1 "" "id").records = []) ∧
    (0 < (filterRecords "" [⟨1, "a", 1, "b", none, "Regular", none, []⟩,
        ⟨2, "c", 2, "d", none, "Arrear", none, []⟩]).length →
      1 = (papersListing [⟨1, "a", 1, "b", none, "Regular", none, []⟩,
        ⟨2, "c", 2, "d", none, "Arrear", none, []⟩] 1 "" "id").total_pages →
      (papersListing [⟨1, "a", 1, "b", none, "Regular", none, []⟩,
        ⟨2, "c", 2, "d", none, "Arrear", none, []⟩] 1 "" "id").records.length =
        if (filterRecords "" [⟨1, "a", 1, "b", none, "Regular", none, []⟩,
          ⟨2, "c", 2, "d", none, "Arrear", none, []⟩]).length % 10 = 0 then 10
        else (filterRecords "" [⟨1, "a", 1, "b", none, "Regular", none, []⟩,
          ⟨2, "c", 2, "d", none, "Arrear", none, []⟩]).length % 10) :=
  C1_pagination _ 1 "" "id" (by decide)

theorem addRejectsSpec_iff (f : PaperForm) :
    addRejectsSpec f = true ↔
      (f.year_name = "" ∨ f.subject_name = "" ∨ f.paper_type = "" ∨ f.file = none ∨
       20 < f.year_name.length ∨ 100 < f.subject_name.length ∨
       (¬ f.subject_code = "" ∧ 20 < f.subject_code.length) ∨
       f.semester_no < 1 ∨ 12 < f.semester_no ∨
       ¬ (f.paper_type = "Regular" ∨ f.paper_type = "Arrear") ∨
       ¬ fileOk f.file = true) := by
  unfold addRejectsSpec
  cases hf : f.file <;> simp [fileOk] <;> tauto

theorem addOp_reject (st : Store) (f : PaperForm) (hspec : addRejectsSpec f = true) :
    (addOp st f).1 = st ∧ (addOp st f).2 ≠ MutResult.success := by
  rw [addRejectsSpec_iff] at hspec
  unfold addOp
  by_cases h1 : f.year_name = "" ∨ f.subject_name = "" ∨ f.paper_type = "" ∨ f.file = none
  · rw [if_pos h1]
    exact ⟨rfl, by simp⟩
  rw [if_neg h1]
  by_cases h2 : 20 < f.year_name.length ∨ 100 < f.subject_name.length ∨
      (¬ f.subject_code = "" ∧ 20 < f.subject_code.length)
  · rw [if_pos h2]
    exact ⟨rfl, by simp⟩
  rw [if_neg h2]
  by_cases h3 : ¬ (1 ≤ f.semester_no ∧ f.semester_no ≤ 12)
  · rw [if_pos h3]
    exact ⟨rfl, by simp⟩
  rw [if_neg h3]
  by_cases h4 : ¬ (f.paper_type = "Regular" ∨ f.paper_type = "Arrear")
  · rw [if_pos h4]
    exact ⟨rfl, by simp⟩
  rw [if_neg h4]
  have h3' := not_not.mp h3
  have h4' := not_not.mp h4
  rcases hf : f.file with _ | fl
  · exact ⟨rfl, by simp⟩
  · by_cases hal : allowed_file fl.1 = true
    · exfalso
      rw [hf] at hspec h1
      simp only [fileOk, not_not, reduceCtorEq, or_false] at hspec h1
      have hs1 : ¬ (f.semester_no < 1) := by omega
      have hs2 : ¬ (12 < f.semester_no) := by omega
      have hal' : ¬ ¬ allowed_file fl.1 = true := not_not.mpr hal
      tauto
    · show ((if ¬ allowed_file fl.1 = true then (st, MutResult.badFile)
          else ({ rows := st.rows ++ [mkPaper st.nextId f fl.2],
                  nextId := st.nextId + 1 }, MutResult.success)) : Store × MutResult).1 = st ∧
        ((if ¬ allowed_file fl.1 = true then (st, MutResult.badFile)
          else ({ rows := st.rows ++ [mkPaper st.nextId f fl.2],
                  nextId := st.nextId + 1 }, MutResult.success)) : Store × MutResult).2 ≠
          MutResult.success
      rw [if_pos hal]
      exact ⟨rfl, by simp⟩

theorem addOp_accept (st : Store) (f : PaperForm) (hspec : addRejectsSpec f = false)
    (fl : String × List Nat) (hf : f.file = some fl) :
    addOp st f = ({ rows := st.rows ++ [mkPaper st.nextId f fl.2],
                    nextId := st.nextId + 1 }, MutResult.success) := by
  have hs' : ¬ addRejectsSpec f = true := by simp [hspec]
  rw [addRejectsSpec_iff] at hs'
  simp only [not_or] at hs'
  obtain ⟨hy, hsub, hpt, hfn, hyl, hsl, hsc, hs1, hs2, hpt2, hfo⟩ := hs'
  rw [hf] at hfo
  simp only [fileOk, not_not] at hfo
  unfold addOp
  rw [if_neg (by simp only [not_or]; exact ⟨hy, hsub, hpt, hfn⟩),
      if_neg (by simp only [not_or]; exact ⟨hyl, hsl, hsc⟩),
      if_neg (not_not.mpr ⟨by omega, by omega⟩),
      if_neg (by tauto)]
  rw [hf]
  show (if ¬ allowed_file fl.1 = true then (st, MutResult.badFile)
        else ({ rows := st.rows ++ [mkPaper st.nextId f fl.2],
                nextId := st.nextId + 1 }, MutResult.success)) = _
  rw [if_neg (by simpa using hfo)]

/-- C4: the add operation rejects and leaves the store unchanged exactly
when a required field is empty, a length limit is exceeded, semester_no is
outside [1,12], paper_type is not Regular/Arrear, or the upload fails the
.pdf extension check; otherwise it appends exactly one new row built from
the form and reports success. -/
theorem C4_add_correct (st : Store) (f : PaperForm) :
    (addRejectsSpec f = true ↔
      (addOp st f).1 = st ∧ (addOp st f).2 ≠ MutResult.success) ∧
    (addRejectsSpec f = false → ∀ fl, f.file = some fl →
      addOp st f = ({ rows := st.rows ++ [mkPaper st.nextId f fl.2],
                      nextId := st.nextId + 1 }, MutResult.success)) := by
  constructor
  · constructor
    · exact addOp_reject st f
    · rintro ⟨h1, h2⟩
      by_contra hb
      have hfalse : addRejectsSpec f = false := by
        cases h : addRejectsSpec f
        · rfl
        · exact absurd h hb
      rcases hf : f.file with _ | fl
      · exact hb ((addRejectsSpec_iff f).mpr (by tauto))
      · have := addOp_accept st f hfalse fl hf
        rw [this] at h2
        exact h2 rfl
  · intro h fl hf
    exact addOp_accept st f h fl hf

/-- C4 witness: a fully valid form (semester 1) is persisted as one new
row; the same form with semester 0 is rejected and the store unchanged. -/
theorem C4_add_correct_witness :
    addOp ⟨[], 1⟩ ⟨"2024", 1, "DS", "", "Regular", none, some ("a.pdf", [7])⟩ =
      ({ rows := [mkPaper 1 ⟨"2024", 1, "DS", "", "Regular", none, some ("a.pdf", [7])⟩ [7]],
         nextId := 2 }, MutResult.success) ∧
    ((addOp ⟨[], 1⟩ ⟨"2024", 0, "DS", "", "Regular", none, some ("a.pdf", [7])⟩).1 =
        (⟨[], 1⟩ : Store) ∧
      (addOp ⟨[], 1⟩ ⟨"2024", 0, "DS", "", "Regular", none, some ("a.pdf", [7])⟩).2 ≠
        MutResult.success) :=
  ⟨(C4_add_correct ⟨[], 1⟩ _).2 (by decide) ("a.pdf", [7]) rfl,
   (C4_add_correct ⟨[], 1⟩ _).1.mp (by decide)⟩

theorem map_if_id {α : Type} (p : α → Prop) [DecidablePred p] (g : α → α)
    (l : List α) (h : ∀ a ∈ l, ¬ p a) :
    l.map (fun a => if p a then g a else a) = l := by
  induction l with
  | nil => rfl
  | cons a as ih =>
    simp only [List.map_cons]
    rw [if_neg (h a (List.mem_cons_self a as)),
      ih (fun x hx => h x (List.mem_cons_of_mem _ hx))]

theorem updateValid_iff (f : PaperForm) :
    updateValid f = true ↔
      (¬ f.year_name = "" ∧ ¬ f.subject_name = "" ∧ ¬ f.paper_type = "" ∧
       f.year_name.length ≤ 20 ∧ f.subject_name.length ≤ 100 ∧
       (f.subject_code = "" ∨ f.subject_code.length ≤ 20) ∧
       1 ≤ f.semester_no ∧ f.semester_no ≤ 12 ∧
       (f.paper_type = "Regular" ∨ f.paper_type = "Arrear") ∧
       fileOk f.file = true) := by
  unfold updateValid
  cases hf : f.file <;> simp [fileOk] <;> tauto

theorem updatePost_valid (st : Store) (id : Nat) (f : PaperForm)
    (hv : updateValid f = true) :
    updatePost st id f =
      ({ st with rows :=
           st.rows.map (fun r => if r.id = id then applyUpd f (Option.map Prod.snd f.file) r
                                 else r) },
       MutResult.success) := by
  rw [updateValid_iff] at hv
  obtain ⟨hy, hsub, hpt, hyl, hsl, hsc, hs1, hs2, hptv, hfo⟩ := hv
  have c1 : ¬ (f.year_name = "" ∨ f.subject_name = "" ∨ f.paper_type = "") := by
    simp only [not_or]
    exact ⟨hy, hsub, hpt⟩
  have c2 : ¬ (20 < f.year_name.length ∨ 100 < f.subject_name.length ∨
      (¬ f.subject_code = "" ∧ 20 < f.subject_code.length)) := by
    simp only [not_or]
    refine ⟨by omega, by omega, ?_⟩
    rcases hsc with h | h
    · exact fun hc => absurd h hc.1
    · exact fun hc => absurd hc.2 (by omega)
  unfold updatePost
  rw [if_neg c1, if_neg c2, if_neg (not_not.mpr ⟨hs1, hs2⟩), if_neg (not_not.mpr hptv)]
  rcases hfile : f.file with _ | fl
  · rfl
  · rw [hfile] at hfo
    simp only [fileOk] at hfo
    show (if ¬ allowed_file fl.1 = true then (st, MutResult.badFile)
          else ({ st with rows :=
                    st.rows.map (fun r => if r.id = id then applyUpd f (some fl.2) r else r) },
                MutResult.success)) = _
    rw [if_neg (by simpa using hfo)]
    rfl

/-- C5: a valid update submission reports success and rewrites exactly the
rows with the targeted id: every other row is kept unchanged, the targeted
row gets the form's metadata, its stored bytes are preserved when no new
file was uploaded and replaced by the new file's bytes otherwise. -/
theorem C5_update_frame (st : Store) (id : Nat) (f : PaperForm)
    (hv : updateValid f = true) :
    (updatePost st id f).2 = MutResult.success ∧
    (updatePost st id f).1.rows =
      st.rows.map (fun r => if r.id = id then applyUpd f (Option.map Prod.snd f.file) r
                            else r) ∧
    (∀ r ∈ st.rows, ¬ r.id = id → r ∈ (updatePost st id f).1.rows) ∧
    (∀ r ∈ st.rows, r.id = id →
      applyUpd f (Option.map Prod.snd f.file) r ∈ (updatePost st id f).1.rows ∧
      (f.file = none →
        (applyUpd f (Option.map Prod.snd f.file) r).file_data = r.file_data) ∧
      (∀ fl, f.file = some fl →
        (applyUpd f (Option.map Prod.snd f.file) r).file_data = fl.2)) := by
  rw [updatePost_valid st id f hv]
  refine ⟨rfl, rfl, ?_, ?_⟩
  · intro r hr hne
    have he : (fun r : Paper =>
        if r.id = id then applyUpd f (Option.map Prod.snd f.file) r else r) r = r :=
      if_neg hne
    exact he ▸ List.mem_map_of_mem _ hr
  · intro r hr heq
    have he : (fun r : Paper =>
        if r.id = id then applyUpd f (Option.map Prod.snd f.file) r else r) r =
        applyUpd f (Option.map Prod.snd f.file) r :=
      if_pos heq
    refine ⟨he ▸ List.mem_map_of_mem _ hr, ?_, ?_⟩
    · intro hn
      rw [hn]
      rfl
    · intro fl hfl
      rw [hfl]
      rfl

/-- C5 witness: updating id 1 of a two-record store without a new file
succeeds and rewrites exactly the map image; in particular the old bytes of
row 1 survive and row 2 is untouched. -/
theorem C5_update_frame_witness :
    (updatePost ⟨[⟨1, "a", 1, "b", none, "Regular", none, [9]⟩,
        ⟨2, "c", 2, "d", none, "Arrear", none, [8]⟩], 3⟩ 1
        ⟨"x", 1, "y", "", "Regular", none, none⟩).2 = MutResult.success ∧
    (updatePost ⟨[⟨1, "a", 1, "b", none, "Regular", none, [9]⟩,
        ⟨2, "c", 2, "d", none, "Arrear", none, [8]⟩], 3⟩ 1
        ⟨"x", 1, "y", "", "Regular", none, none⟩).1.rows =
      [⟨1, "a", 1, "b", none, "Regular", none, [9]⟩,
       ⟨2, "c", 2, "d", none, "Arrear", none, [8]⟩].map
        (fun r => if r.id = 1 then
          applyUpd ⟨"x", 1, "y", "", "Regular", none, none⟩
            (Option.map Prod.snd (⟨"x", 1, "y", "", "Regular", none, none⟩ : PaperForm).file) r
          else r) :=
  ⟨(C5_update_frame _ 1 _ (by decide)).1, (C5_update_frame _ 1 _ (by decide)).2.1⟩

/-- C6 counterexample: submitting a valid update for id 2, which is absent
from the store, flashes the generic success message and leaves the store
unchanged — it does not produce the not-found outcome the claim asserts. -/
theorem C6_update_missing_cex :
    updatePost ⟨[⟨1, "a", 1, "b", none, "Regular", none, [9]⟩], 2⟩ 2
        ⟨"x", 1, "y", "", "Regular", none, none⟩ =
      (⟨[⟨1, "a", 1, "b", none, "Regular", none, [9]⟩], 2⟩, MutResult.success) := by
  decide

/-- C6 (amended): for an id absent from the store, fetching the edit view
yields the distinct not-found outcome and, on a valid submission, the store
is left unchanged while the route reports the generic success signal (no
crash and no not-found in the POST case). -/
theorem C6_update_missing (st : Store) (id : Nat) (f : PaperForm)
    (hid : ∀ r ∈ st.rows, ¬ r.id = id) (hv : updateValid f = true) :
    updateGet st id = GetUpdResult.notFound ∧
    updatePost st id f = (st, MutResult.success) := by
  constructor
  · unfold updateGet
    rw [List.find?_eq_none.mpr (fun r hr => by simpa using hid r hr)]
  · rw [updatePost_valid st id f hv]
    rw [map_if_id (fun r : Paper => r.id = id)
      (applyUpd f (Option.map Prod.snd f.file)) st.rows hid]

/-- C6 witness: on a one-record store (id 1), id 5 yields the not-found
edit view and a valid POST leaves the store unchanged with the success
flash. -/
theorem C6_update_missing_witness :
    updateGet ⟨[⟨1, "a", 1, "b", none, "Regular", none, [9]⟩], 2⟩ 5 =
      GetUpdResult.notFound ∧
    updatePost ⟨[⟨1, "a", 1, "b", none, "Regular", none, [9]⟩], 2⟩ 5
        ⟨"x", 1, "y", "", "Regular", none, none⟩ =
      (⟨[⟨1, "a", 1, "b", none, "Regular", none, [9]⟩], 2⟩, MutResult.success) :=
  C6_update_missing _ 5 _ (by decide) (by decide)

/-- C7 counterexample: for subject_name "Data Structures" and year_name
"2024" the download filename is "Data_Structures_2024.pdf" (werkzeug's
sanitiser replaces whitespace with underscores), not the claimed
"Data Structures_2024.pdf". -/
theorem C7_roundtrip_cex :
    download (addOp ⟨[], 1⟩ ⟨"2024", 3, "Data Structures", "", "Regular", none,
        some ("ds.pdf", [1, 2, 3])⟩).1 1 =
      DownloadResult.file [1, 2, 3] "application/pdf" "Data_Structures_2024.pdf" ∧
    ¬ ("Data_Structures_2024.pdf" : String) = "Data Structures_2024.pdf" := by
  decide

/-- C7 (amended): adding a valid record with payload b and downloading it by
its assigned id returns exactly b with content type application/pdf and the
content-disposition filename obtained from "{subject_name}_{year_name}.pdf"
by werkzeug-style sanitisation (whitespace runs become underscores and
characters outside [A-Za-z0-9_.-] are stripped); e.g. subject_name
"Data Structures", year_name "2024" gives "Data_Structures_2024.pdf". -/
theorem C7_add_download_roundtrip (st : Store) (f : PaperForm)
    (fl : String × List Nat) (hf : f.file = some fl)
    (hspec : addRejectsSpec f = false)
    (hid : ∀ r ∈ st.rows, ¬ r.id = st.nextId) :
    download (addOp st f).1 st.nextId =
      DownloadResult.file fl.2 "application/pdf"
        (secureFilename (f.subject_name ++ "_" ++ f.year_name ++ ".pdf")) := by
  rw [addOp_accept st f hspec fl hf]
  unfold download
  rw [List.find?_append,
    List.find?_eq_none.mpr (fun r hr => by simpa using hid r hr)]
  rw [List.find?_cons_of_pos _ (by simp [mkPaper])]
  rfl

/-- C7 witness: the concrete end-to-end round trip for
subject_name "Data Structures", year_name "2024", payload [1, 2, 3]. -/
theorem C7_add_download_roundtrip_witness :
    download (addOp ⟨[], 1⟩ ⟨"2024", 3, "Data Structures", "", "Regular", none,
        some ("ds.pdf", [1, 2, 3])⟩).1 1 =
      DownloadResult.file [1, 2, 3] "application/pdf"
        (secureFilename ("Data Structures" ++ "_" ++ "2024" ++ ".pdf")) :=
  C7_add_download_roundtrip ⟨[], 1⟩ _ ("ds.pdf", [1, 2, 3]) rfl (by decide)
    (by decide)

/-- C8: delete removes every row with the given id, keeps all other rows,
reports the identical success signal whether or not the id was present, is
a no-op on the store when the id is absent, and is idempotent. -/
theorem C8_delete_idempotent (st : Store) (id : Nat) :
    (∀ r ∈ (deleteOp st id).1.rows, ¬ r.id = id) ∧
    (∀ r ∈ st.rows, ¬ r.id = id → r ∈ (deleteOp st id).1.rows) ∧
    (∀ r ∈ (deleteOp st id).1.rows, r ∈ st.rows) ∧
    (deleteOp st id).2 = DelResult.success ∧
    ((∀ r ∈ st.rows, ¬ r.id = id) → (deleteOp st id).1 = st) ∧
    deleteOp (deleteOp st id).1 id = deleteOp st id := by
  unfold deleteOp
  refine ⟨?_, ?_, ?_, rfl, ?_, ?_⟩
  · intro r hr
    simpa using (List.mem_filter.mp hr).2
  · intro r hr hne
    exact List.mem_filter.mpr ⟨hr, by simpa using hne⟩
  · intro r hr
    exact (List.mem_filter.mp hr).1
  · intro h
    have heq : st.rows.filter (fun r => decide (¬ r.id = id)) = st.rows :=
      List.filter_eq_self.mpr (fun r hr => by simpa using h r hr)
    rw [heq]
  · rw [List.filter_filter]
    simp

/-- C8 witness: deleting id 1 from a one-record store reports success, and
deleting it again gives the same store and the same outcome. -/
theorem C8_delete_idempotent_witness :
    (deleteOp ⟨[⟨1, "a", 1, "b", none, "Regular", none, []⟩], 2⟩ 1).2 =
      DelResult.success ∧
    deleteOp (deleteOp ⟨[⟨1, "a", 1, "b", none, "Regular", none, []⟩], 2⟩ 1).1 1 =
      deleteOp ⟨[⟨1, "a", 1, "b", none, "Regular", none, []⟩], 2⟩ 1 :=
  ⟨(C8_delete_idempotent _ 1).2.2.2.1, (C8_delete_idempotent _ 1).2.2.2.2.2⟩

theorem visitAll_eq (ids : List String) : visitAll ids = ids := by
  have h : ∀ acc : List String,
      ids.foldl (fun vs i => (papersVisit none i vs).state) acc = acc ++ ids := by
    induction ids with
    | nil => intro acc; simp
    | cons a as ih =>
      intro acc
      rw [List.foldl_cons, ih]
      show (acc ++ [a]) ++ as = acc ++ a :: as
      simp
  simpa using h []

theorem dedup_length_append_mem {α : Type} [DecidableEq α] (l : List α) (v : α)
    (hv : v ∈ l) : (l ++ [v]).dedup.length = l.dedup.length := by
  have h1 : (l ++ [v]).toFinset = l.toFinset := by
    rw [List.toFinset_append]
    apply Finset.union_eq_left.mpr
    simp [hv]
  calc (l ++ [v]).dedup.length = (l ++ [v]).toFinset.card :=
        (List.card_toFinset (l ++ [v])).symm
    _ = l.toFinset.card := by rw [h1]
    _ = l.dedup.length := List.card_toFinset l

/-- C9: every public-listing view appends exactly one visitor row tagged
with the cookie id, or with the freshly minted id when no cookie is present
(then the cookie is set with 30-day expiry); N views by N distinct
no-cookie clients starting from an empty table give total_visits = N and
unique_visitors = N; a repeat view carrying a previously issued id
increments total_visits but not unique_visitors. -/
theorem C9_visitor_counting :
    (∀ fresh vs, papersVisit none fresh vs =
      { state := vs ++ [fresh], usedId := fresh,
        setCookie := some (fresh, 30 * 24 * 60 * 60) }) ∧
    (∀ v fresh vs, papersVisit (some v) fresh vs =
      { state := vs ++ [v], usedId := v, setCookie := none }) ∧
    (∀ ids : List String, ids.Nodup →
      totalVisits (visitAll ids) = ids.length ∧
      uniqueVisitors (visitAll ids) = ids.length) ∧
    (∀ vs v fresh, v ∈ vs →
      totalVisits (papersVisit (some v) fresh vs).state = totalVisits vs + 1 ∧
      uniqueVisitors (papersVisit (some v) fresh vs).state = uniqueVisitors vs) := by
  refine ⟨fun fresh vs => rfl, fun v fresh vs => rfl, ?_, ?_⟩
  · intro ids hnd
    rw [visitAll_eq]
    exact ⟨rfl, by rw [uniqueVisitors, List.dedup_eq_self.mpr hnd]⟩
  · intro vs v fresh hv
    constructor
    · simp [papersVisit, totalVisits]
    · exact dedup_length_append_mem vs v hv

/-- C9 witness: two distinct no-cookie views give total 2, unique 2; a
repeat view with the previously issued id "a" raises the total by one and
leaves unique_visitors unchanged. -/
theorem C9_visitor_counting_witness :
    (totalVisits (visitAll ["a", "b"]) = 2 ∧
      uniqueVisitors (visitAll ["a", "b"]) = 2) ∧
    (totalVisits (papersVisit (some "a") "c" ["a", "b"]).state =
        totalVisits ["a", "b"] + 1 ∧
      uniqueVisitors (papersVisit (some "a") "c" ["a", "b"]).state =
        uniqueVisitors ["a", "b"]) :=
  ⟨C9_visitor_counting.2.2.1 ["a", "b"] (by decide),
   C9_visitor_counting.2.2.2 ["a", "b"] "a" "c" (by decide)⟩

/-- C10 witness: the characterization instantiated on concrete filenames:
"x.PDF" is accepted and "pdf" (no dot) is rejected. -/
theorem C10_allowed_file_witness :
    allowed_file "x.PDF" = true ∧ allowed_file "pdf" = false :=
  ⟨C10_allowed_file_correct.2.1, C10_allowed_file_correct.2.2.2.1⟩
